import Mathlib

/-!
# Verification of `labelgen.py` (KiCAD_Netlabel_Tool)

Shallow embedding of the label-insertion script `src/labelgen.py`.
The script reads a CSV with a `Label` column, backs up a KiCad schematic
file, inserts one net label per non-empty CSV label cell, and writes the
schematic back.  Numbers that are Python floats in the source are modelled
as exact rationals (`ℚ`); all decimal literals of the source are exact in
this model.  Strings are modelled through their character lists; `strip`,
`lower` and `upper` are modelled on the ASCII range the script's data uses.
-/

set_option autoImplicit false

namespace LabelGen

/-! ## Python string primitives -/

/-- Characters removed by Python `str.strip()` (modelled on the ASCII
whitespace the tool's CSV data can contain). -/
def stripChars (cs : List Char) : List Char :=
  ((cs.dropWhile Char.isWhitespace).reverse.dropWhile Char.isWhitespace).reverse

/-- Python `s.strip()`. -/
def pyStrip (s : String) : String := ⟨stripChars s.data⟩

/-- Python `s.lower()` (ASCII case mapping, as used on the header names). -/
def pyLower (s : String) : String := ⟨s.data.map Char.toLower⟩

/-- Python `s.upper()` (ASCII case mapping, as used on the label text). -/
def pyUpper (s : String) : String := ⟨s.data.map Char.toUpper⟩

/-! ## The pathlib fragment used by the script

`bak_path = schematic.with_suffix(schematic.suffix + ".bak")` (line 145).
`Path.suffix` is the part of the file name from the last dot, provided that
dot is neither the first nor the last character; `with_suffix` drops the old
suffix (if any) and appends the new one. -/

/-- Index of the last occurrence of `a` in `l` (Python `str.rfind`). -/
def lastIdx {α : Type} [DecidableEq α] : List α → α → Option Nat
  | [], _ => none
  | b :: bs, a =>
    match lastIdx bs a with
    | some i => some (i + 1)
    | none => if b = a then some 0 else none

/-- Start index of the `pathlib` suffix of a file name: position of the last
dot when it is neither at position 0 nor last, else the name's length
(meaning an empty suffix). -/
def pySuffixStart (name : List Char) : Nat :=
  match lastIdx name '.' with
  | some i => if 0 < i ∧ i < name.length - 1 then i else name.length
  | none => name.length

/-- Python `pathlib.PurePath.suffix` of a file name. -/
def pySuffix (name : List Char) : List Char := name.drop (pySuffixStart name)

/-- Python `pathlib.PurePath.with_suffix` restricted to the file name (the script
always passes a valid new suffix, so the `ValueError` branches are dead). -/
def pyWithSuffix (name newSuffix : List Char) : List Char :=
  if pySuffix name = [] then name ++ newSuffix
  else name.take (pySuffixStart name) ++ newSuffix

/-- The backup file name computed at line 145:
`schematic.with_suffix(schematic.suffix + ".bak")`. -/
def bakName (name : List Char) : List Char :=
  pyWithSuffix name (pySuffix name ++ ".bak".data)

/-- Backup path as a `String`. -/
def pyBakPath (s : String) : String := ⟨bakName s.data⟩

/-! ## Configuration and document model -/

/-- The options collected by `ConfigDialog` plus the pre-run bytes of the
schematic file (read at line 146). -/
structure Config where
  /-- Whether `dialog.unit == "mm"`, i.e. the metric checkbox. -/
  unitIsMm : Bool
  /-- Value of `dialog.use_global`. -/
  useGlobal : Bool
  /-- Value of `dialog.pitch` (a Python float, modelled exactly). -/
  pitch : ℚ
  /-- File name of the schematic path. -/
  schematicName : String
  /-- Bytes of the schematic file before the run. -/
  schematicBytes : List Nat
  deriving DecidableEq, Repr

/-- The attributes the loaded `skip.Schematic` handle exposes, probed by the
two `hasattr` calls at line 153. -/
structure Doc where
  /-- Whether `hasattr(sch, "global_label")` holds. -/
  hasGlobalLabel : Bool
  /-- Whether `hasattr(sch.global_label, "new")` holds. -/
  globalLabelHasNew : Bool
  deriving DecidableEq, Repr

/-- Line 142: `pitch_mm = dialog.pitch if dialog.unit == "mm" else dialog.pitch * 0.0254`. -/
def toCanonical (v : ℚ) (unitIsMm : Bool) : ℚ :=
  if unitIsMm then v else v * 0.0254

/-- Line 139 constant `START_X_MM`. -/
def START_X_MM : ℚ := -10.0

/-- Line 139 constant `START_Y_MM`. -/
def START_Y_MM : ℚ := -10.0

/-- The position passed to `lbl.move` at line 172 for loop index `idx`:
`(START_X_MM, START_Y_MM - idx * pitch_mm)`. -/
def positionFor (idx : Nat) (pitchMm : ℚ) : ℚ × ℚ :=
  (START_X_MM, START_Y_MM - idx * pitchMm)

/-- Line 153-156: the global collection is chosen only when the user asked
for global labels and the handle exposes `global_label` with a `new`
method; otherwise the local collection is used. -/
def chosenGlobal (cfg : Config) (doc : Doc) : Bool :=
  cfg.useGlobal && doc.hasGlobalLabel && doc.globalLabelHasNew

/-- A net label as created by the loop at lines 170-172. -/
structure SchLabel where
  /-- Whether it came from the global-label collection. -/
  isGlobal : Bool
  /-- Text set through `lbl.value` (line 171). -/
  text : String
  /-- x coordinate set by `lbl.move` (line 172). -/
  x : ℚ
  /-- y coordinate set by `lbl.move` (line 172). -/
  y : ℚ
  deriving DecidableEq, Repr

/-! ## CSV model

The CSV input is modelled after the `csv` module has split the file into
rows of cells: a list of rows, each a list of cell strings.  `DictReader`
takes the first row as `fieldnames`, skips blank rows (`[]`) among the data
rows, and materialises each data row as a dict `zip(fieldnames, row)` where
cells missing from a short row get the `restval`, which is Python `None`. -/

/-- Line 162: `reader.fieldnames or []`. -/
def fieldnames (csv : List (List String)) : List String := csv.headD []

/-- The data rows `DictReader` yields: everything after the header row,
with blank rows skipped. -/
def dataRows (csv : List (List String)) : List (List String) :=
  csv.tail.filter (fun r => !r.isEmpty)

/-- The header test of line 162: `c.strip().lower() == "label"`. -/
def isLabelHeader (c : String) : Bool := pyLower (pyStrip c) == "label"

/-- Line 162: `next((c for c in (reader.fieldnames or []) if c.strip().lower() == "label"), None)`. -/
def findLabelCol (fns : List String) : Option String := fns.find? isLabelHeader

/-- Line 167 `row.get(label_col, "")` under `DictReader` semantics: the dict
maps each field name to the cell at its last occurrence (later duplicates
overwrite earlier ones); a cell beyond the row's length is the restval
Python `None`, modelled as `none`; a key absent from `fieldnames` falls back
to the `get` default `""`. -/
def pyRowGet (fns row : List String) (col : String) : Option String :=
  match lastIdx fns col with
  | none => some ""
  | some i => row.get? i

/-! ## The insertion loop and the whole run -/

/-- Observable file-system and document effects of a run, in program order. -/
inductive Event where
  /-- Backup write `bak_path.write_bytes(schematic.read_bytes())` (line 146). -/
  | backupWrite (path : String) (content : List Nat)
  /-- Label creation `collection.new()` + `lbl.value = ...` + `lbl.move(...)` (lines 170-172). -/
  | labelNew (lbl : SchLabel)
  /-- Schematic write-back `sch.write(str(dialog.schematic))` (line 175). -/
  | schWrite (path : String)
  deriving DecidableEq, Repr

/-- Returns `true` exactly on schematic-write events. -/
def Event.isSchWrite : Event → Bool
  | .schWrite _ => true
  | _ => false

/-- How a run ends. -/
inductive Outcome where
  /-- Exit `messagebox.showerror` + `sys.exit(1)` at lines 164-165. -/
  | missingColumn
  /-- The uncaught `AttributeError` raised by `None.strip()` at line 167
  when the row is shorter than the header, carrying the loop index. -/
  | noneStripFault (idx : Nat)
  /-- Normal completion reporting `count` inserted labels (line 176). -/
  | success (count : Nat)
  deriving DecidableEq, Repr

/-- The loop at lines 166-173.  Arguments: resolved column name, field
names, pitch in mm, chosen collection flag; then the remaining data rows,
the current `enumerate` index and the current `count`.  Returns the labels
created (in order), the final `count`, and `some idx` when row `idx` hits
the `None.strip()` fault. -/
def processRows (col : String) (fns : List String) (pm : ℚ) (isGlob : Bool) :
    List (List String) → Nat → Nat → List SchLabel × Nat × Option Nat
  | [], _, count => ([], count, none)
  | r :: rs, idx, count =>
    match pyRowGet fns r col with
    | none => ([], count, some idx)
    | some v =>
      if pyStrip v = "" then processRows col fns pm isGlob rs (idx + 1) count
      else
        (⟨isGlob, pyUpper (pyStrip v), (positionFor idx pm).1, (positionFor idx pm).2⟩ ::
            (processRows col fns pm isGlob rs (idx + 1) (count + 1)).1,
          (processRows col fns pm isGlob rs (idx + 1) (count + 1)).2)

/-- Everything `main` consumes after the dialogs: the configuration, the
attribute surface of the loaded document handle, and the parsed CSV rows. -/
structure RunInput where
  cfg : Config
  doc : Doc
  csv : List (List String)
  deriving DecidableEq, Repr

/-- The body of `main` from line 139 on: compute the pitch in mm, write the
backup, pick the label collection, resolve the label column (exiting on
failure), run the insertion loop, and on normal completion write the
schematic back.  Returns the event trace in program order and the outcome. -/
def run (inp : RunInput) : List Event × Outcome :=
  let bak := Event.backupWrite (pyBakPath inp.cfg.schematicName) inp.cfg.schematicBytes
  let pm := toCanonical inp.cfg.pitch inp.cfg.unitIsMm
  let fns := fieldnames inp.csv
  match findLabelCol fns with
  | none => ([bak], .missingColumn)
  | some col =>
    if col = "" then ([bak], .missingColumn)
    else
      let res := processRows col fns pm (chosenGlobal inp.cfg inp.doc) (dataRows inp.csv) 0 0
      match res.2.2 with
      | some i => (bak :: res.1.map Event.labelNew, .noneStripFault i)
      | none =>
        (bak :: res.1.map Event.labelNew ++ [Event.schWrite inp.cfg.schematicName],
         .success res.2.1)

/-- The event trace of a run. -/
def runEvents (inp : RunInput) : List Event := (run inp).1

/-- The outcome of a run. -/
def runOutcome (inp : RunInput) : Outcome := (run inp).2

/-- The label carried by a label-creation event, if any. -/
def labelOfEvent : Event → Option SchLabel
  | .labelNew l => some l
  | _ => none

/-- The labels created during a run, in creation order. -/
def runLabels (inp : RunInput) : List SchLabel :=
  (runEvents inp).filterMap labelOfEvent

/-- A data row qualifies (produces a label) when its cell under the
resolved column is present and non-empty after stripping. -/
def qualifies (fns : List String) (col : String) (r : List String) : Bool :=
  match pyRowGet fns r col with
  | some v => !(pyStrip v == "")
  | none => false

/-- Abbreviation for the loop result inside a given run, once the label
column has been resolved to `col`. -/
def runRes (inp : RunInput) (col : String) : List SchLabel × Nat × Option Nat :=
  processRows col (fieldnames inp.csv) (toCanonical inp.cfg.pitch inp.cfg.unitIsMm)
    (chosenGlobal inp.cfg inp.doc) (dataRows inp.csv) 0 0

/-- The backup event every run emits first. -/
def backupEvent (inp : RunInput) : Event :=
  .backupWrite (pyBakPath inp.cfg.schematicName) inp.cfg.schematicBytes

/-! ## Concrete run inputs used in the theorems below -/

/-- Input whose CSV has no label-matching header. -/
def c4wInp : RunInput :=
  ⟨⟨false, false, 100, "m.kicad_sch", []⟩, ⟨true, true⟩, [["Name", "Value"], ["a", "b"]]⟩

/-- Input for the missing-column atomicity witness. -/
def c5wInp : RunInput :=
  ⟨⟨false, false, 100, "board.kicad_sch", [7, 7]⟩, ⟨true, true⟩, [["Ref", "Qty"], ["U1", "2"]]⟩

/-- Input for the backup-priority witness: a run that fails with the
missing-column error. -/
def c6wInp : RunInput :=
  ⟨⟨true, false, 2, "top.kicad_sch", [9]⟩, ⟨true, true⟩, [["Ref"], ["U1"]]⟩

/-- The CSV of the pitch scenario: header `Ref, Label` and data rows
`(U1, "led1")`, `(U2, "  ")`, `(U3, "led2")`. -/
def c1Csv : List (List String) :=
  [["Ref", "Label"], ["U1", "led1"], ["U2", "  "], ["U3", "led2"]]

/-- The pitch scenario run: 100 mil pitch, imperial unit, local labels. -/
def c1Inp : RunInput :=
  ⟨⟨false, false, 100, "sheet.kicad_sch", []⟩, ⟨true, true⟩, c1Csv⟩

/-- A run requesting global labels against a document handle that does not
expose a usable `global_label` collection. -/
def c2Inp : RunInput :=
  ⟨⟨true, true, 2, "s.kicad_sch", []⟩, ⟨false, false⟩, [["Label"], ["net1"]]⟩

/-- A global-label run against a handle exposing the global collection. -/
def c2wInp : RunInput :=
  ⟨⟨true, true, 2, "w.kicad_sch", []⟩, ⟨true, true⟩, [["Label"], ["net1"]]⟩

/-- A CSV whose single data row is shorter than the header. -/
def c3Inp : RunInput :=
  ⟨⟨true, false, 2, "s.kicad_sch", [1]⟩, ⟨true, true⟩, [["Ref", "Label"], ["U1"]]⟩

/-- A successful run with two qualifying rows and one skipped row. -/
def c7wInp : RunInput :=
  ⟨⟨true, false, 2, "c.kicad_sch", []⟩, ⟨false, false⟩,
    [["Label"], ["a"], [" "], ["b"]]⟩

/-- A run whose label column resolves but whose second data row is shorter
than the header. -/
def c10Inp : RunInput :=
  ⟨⟨false, false, 100, "t.kicad_sch", [3]⟩, ⟨true, true⟩, [["Ref", "Label"], ["U7"]]⟩

/-- A successful run with a header-only CSV: zero labels inserted. -/
def c10wInp : RunInput :=
  ⟨⟨true, false, 2, "z.kicad_sch", [5]⟩, ⟨true, true⟩, [["Label"]]⟩

/-! ## Helper lemmas -/

theorem pySuffix_append_eq (name : List Char) :
    name.take (pySuffixStart name) ++ pySuffix name = name := by
  unfold pySuffix
  exact List.take_append_drop _ name

theorem bakName_eq (name : List Char) : bakName name = name ++ ".bak".data := by
  unfold bakName pyWithSuffix
  by_cases h : pySuffix name = []
  · rw [if_pos h, h]
    simp
  · rw [if_neg h, ← List.append_assoc, pySuffix_append_eq]

theorem pyBakPath_eq (s : String) : pyBakPath s = s ++ ".bak" := by
  apply String.ext
  rw [String.data_append]
  exact bakName_eq s.data

theorem pyUpper_ne_empty {s : String} (h : s ≠ "") : pyUpper s ≠ "" := by
  intro hc
  apply h
  have hdata : s.data.map Char.toUpper = [] := congrArg String.data hc
  apply String.ext
  simpa using hdata

theorem isLabelHeader_eq_true_iff (c : String) :
    isLabelHeader c = true ↔ pyLower (pyStrip c) = "label" := by
  simp [isLabelHeader]

theorem findLabelCol_ne_empty {fns : List String} {col : String}
    (h : findLabelCol fns = some col) : col ≠ "" := by
  intro hc
  subst hc
  have hp : isLabelHeader "" = true := List.find?_some h
  simp [isLabelHeader, pyLower, pyStrip, stripChars] at hp

/-- Every label the loop creates comes from the chosen collection. -/
theorem processRows_isGlobal (col : String) (fns : List String) (pm : ℚ) (g : Bool) :
    ∀ (rows : List (List String)) (idx count : Nat) (l : SchLabel),
      l ∈ (processRows col fns pm g rows idx count).1 → l.isGlobal = g := by
  intro rows
  induction rows with
  | nil =>
    intro idx count l hl
    simp [processRows] at hl
  | cons r rs ih =>
    intro idx count l hl
    cases hv : pyRowGet fns r col with
    | none =>
      simp [processRows, hv] at hl
    | some v =>
      by_cases hr : pyStrip v = ""
      · rw [processRows, hv] at hl
        simp only [hr, if_pos rfl] at hl
        exact ih _ _ l hl
      · rw [processRows, hv] at hl
        simp only [if_neg hr] at hl
        rcases List.mem_cons.mp hl with h | h
        · subst h; rfl
        · exact ih _ _ l h

/-- Every label the loop creates carries the upper-cased strip of a cell
that is present and non-empty after stripping. -/
theorem processRows_mem_text (col : String) (fns : List String) (pm : ℚ) (g : Bool) :
    ∀ (rows : List (List String)) (idx count : Nat) (l : SchLabel),
      l ∈ (processRows col fns pm g rows idx count).1 →
      ∃ r ∈ rows, ∃ v, pyRowGet fns r col = some v ∧ pyStrip v ≠ "" ∧
        l.text = pyUpper (pyStrip v) := by
  intro rows
  induction rows with
  | nil =>
    intro idx count l hl
    simp [processRows] at hl
  | cons r rs ih =>
    intro idx count l hl
    cases hv : pyRowGet fns r col with
    | none =>
      simp [processRows, hv] at hl
    | some v =>
      by_cases hr : pyStrip v = ""
      · rw [processRows, hv] at hl
        simp only [hr, if_pos rfl] at hl
        obtain ⟨r₀, hr₀, hrest⟩ := ih _ _ l hl
        exact ⟨r₀, List.mem_cons_of_mem _ hr₀, hrest⟩
      · rw [processRows, hv] at hl
        simp only [if_neg hr] at hl
        rcases List.mem_cons.mp hl with h | h
        · subst h
          exact ⟨r, List.mem_cons_self r rs, v, hv, hr, rfl⟩
        · obtain ⟨r₀, hr₀, hrest⟩ := ih _ _ l h
          exact ⟨r₀, List.mem_cons_of_mem _ hr₀, hrest⟩

/-- On a fault-free loop, the final count extends the initial count by the
number of qualifying rows, and equals the number of labels created. -/
theorem processRows_count (col : String) (fns : List String) (pm : ℚ) (g : Bool) :
    ∀ (rows : List (List String)) (idx count : Nat),
      (processRows col fns pm g rows idx count).2.2 = none →
      (processRows col fns pm g rows idx count).2.1 =
        count + (rows.filter (qualifies fns col)).length ∧
      (processRows col fns pm g rows idx count).1.length =
        (rows.filter (qualifies fns col)).length := by
  intro rows
  induction rows with
  | nil =>
    intro idx count _
    simp [processRows]
  | cons r rs ih =>
    intro idx count hnone
    cases hv : pyRowGet fns r col with
    | none =>
      rw [processRows, hv] at hnone
      simp at hnone
    | some v =>
      have hq : qualifies fns col r = !(pyStrip v == "") := by
        simp [qualifies, hv]
      by_cases hr : pyStrip v = ""
      · rw [processRows, hv] at hnone ⊢
        simp only [hr, if_pos rfl] at hnone ⊢
        have hqf : qualifies fns col r = false := by
          rw [hq, hr]
          simp
        rw [List.filter_cons, hqf]
        simpa using ih _ _ hnone
      · rw [processRows, hv] at hnone ⊢
        simp only [if_neg hr] at hnone ⊢
        have hqt : qualifies fns col r = true := by
          rw [hq]
          simpa using hr
        rw [List.filter_cons, hqt]
        obtain ⟨h1, h2⟩ := ih _ _ hnone
        constructor
        · rw [h1]
          simp [List.length_cons]
          omega
        · simp [List.length_cons, h2]

theorem filterMap_labelOfEvent_map (L : List SchLabel) :
    (L.map Event.labelNew).filterMap labelOfEvent = L := by
  induction L with
  | nil => rfl
  | cons l ls ih => simp [labelOfEvent, ih]

theorem filterMap_labelOfEvent_comp (L : List SchLabel) :
    L.filterMap (labelOfEvent ∘ Event.labelNew) = L := by
  induction L with
  | nil => rfl
  | cons l ls ih => simp [labelOfEvent, ih]

theorem filter_isSchWrite_map (L : List SchLabel) :
    (L.map Event.labelNew).filter Event.isSchWrite = [] := by
  induction L with
  | nil => rfl
  | cons l ls ih => simp [Event.isSchWrite, ih]

/-- Shape of a run when no header matches the label test. -/
theorem run_eq_of_none {inp : RunInput} (h : findLabelCol (fieldnames inp.csv) = none) :
    run inp = ([backupEvent inp], .missingColumn) := by
  simp [run, h, backupEvent]

/-- Shape of a run once the label column resolves and the loop faults. -/
theorem run_of_some_fault {inp : RunInput} {col : String} {i : Nat}
    (h : findLabelCol (fieldnames inp.csv) = some col)
    (hf : (runRes inp col).2.2 = some i) :
    run inp = (backupEvent inp :: (runRes inp col).1.map Event.labelNew,
      .noneStripFault i) := by
  have hcol := findLabelCol_ne_empty h
  simp only [run, h, if_neg hcol]
  rw [show processRows col (fieldnames inp.csv)
        (toCanonical inp.cfg.pitch inp.cfg.unitIsMm) (chosenGlobal inp.cfg inp.doc)
        (dataRows inp.csv) 0 0 = runRes inp col from rfl, hf]
  rfl

/-- Shape of a run once the label column resolves and the loop is
fault-free. -/
theorem run_of_some_ok {inp : RunInput} {col : String}
    (h : findLabelCol (fieldnames inp.csv) = some col)
    (hf : (runRes inp col).2.2 = none) :
    run inp = (backupEvent inp :: (runRes inp col).1.map Event.labelNew ++
      [Event.schWrite inp.cfg.schematicName], .success (runRes inp col).2.1) := by
  have hcol := findLabelCol_ne_empty h
  simp only [run, h, if_neg hcol]
  rw [show processRows col (fieldnames inp.csv)
        (toCanonical inp.cfg.pitch inp.cfg.unitIsMm) (chosenGlobal inp.cfg inp.doc)
        (dataRows inp.csv) 0 0 = runRes inp col from rfl, hf]
  rfl

/-- Whenever the label column resolves, the created labels are exactly the
loop's labels. -/
theorem runLabels_of_some {inp : RunInput} {col : String}
    (h : findLabelCol (fieldnames inp.csv) = some col) :
    runLabels inp = (runRes inp col).1 := by
  cases hf : (runRes inp col).2.2 with
  | none =>
    have hrun := run_of_some_ok h hf
    rw [runLabels, runEvents, hrun]
    simp [labelOfEvent, backupEvent, filterMap_labelOfEvent_comp]
  | some i =>
    have hrun := run_of_some_fault h hf
    rw [runLabels, runEvents, hrun]
    simp [labelOfEvent, backupEvent, filterMap_labelOfEvent_comp]

/-- A successful outcome means the column resolved, the loop was fault-free
and the reported count is the loop's count. -/
theorem runOutcome_success {inp : RunInput} {n : Nat}
    (h : runOutcome inp = .success n) :
    ∃ col, findLabelCol (fieldnames inp.csv) = some col ∧
      (runRes inp col).2.2 = none ∧ n = (runRes inp col).2.1 := by
  cases hcol : findLabelCol (fieldnames inp.csv) with
  | none =>
    rw [runOutcome, run_eq_of_none hcol] at h
    simp at h
  | some col =>
    cases hf : (runRes inp col).2.2 with
    | some i =>
      rw [runOutcome, run_of_some_fault hcol hf] at h
      simp at h
    | none =>
      rw [runOutcome, run_of_some_ok hcol hf] at h
      simp only [Outcome.success.injEq] at h
      exact ⟨col, rfl, hf, h.symm⟩

/-! ## Claim theorems -/

/-- C8: for every ordinal `i ≥ 0` and positive pitch `p`, the layout
function is the pure total function with `x(i)` constantly `-10` and
`y(i) = -10 - i * p` (`startX = startY = -10`), so consecutive ordinals
satisfy `y(i) - y(i+1) = p`. -/
theorem layout_pitch_relation (i : Nat) (p : ℚ) (_hp : 0 < p) :
    (positionFor i p).2 - (positionFor (i + 1) p).2 = p ∧
    (positionFor i p).1 = -10 ∧
    (positionFor i p).2 = -10 - (i : ℚ) * p ∧
    START_X_MM = -10 ∧ START_Y_MM = -10 := by
  refine ⟨?_, ?_, ?_, ?_, ?_⟩ <;>
    · simp only [positionFor, START_X_MM, START_Y_MM]
      push_cast
      norm_num
      try ring

theorem layout_pitch_relation_witness :
    (0 : ℚ) < 1 ∧
    ((positionFor 3 1).2 - (positionFor (3 + 1) 1).2 = 1 ∧
      (positionFor 3 1).1 = -10 ∧
      (positionFor 3 1).2 = -10 - (3 : ℚ) * 1 ∧
      START_X_MM = -10 ∧ START_Y_MM = -10) :=
  ⟨by norm_num, layout_pitch_relation 3 1 (by norm_num)⟩

/-- C9: unit conversion to canonical millimetres is the identity for the
metric unit and exact multiplication by `0.0254` for the imperial unit;
in particular a 100 mil pitch converts to exactly `2.54` mm. -/
theorem unit_conversion_exact (v : ℚ) :
    toCanonical v true = v ∧ toCanonical v false = v * 0.0254 ∧
    toCanonical v false = v * (254 / 10000) ∧ toCanonical 100 false = 2.54 := by
  refine ⟨rfl, rfl, ?_, ?_⟩ <;> norm_num [toCanonical]

theorem unit_conversion_exact_witness :
    toCanonical 100 true = 100 ∧ toCanonical 100 false = 100 * 0.0254 ∧
    toCanonical 100 false = 100 * (254 / 10000) ∧ toCanonical 100 false = 2.54 :=
  unit_conversion_exact 100

/-- C4: the run fails with the missing-column error exactly when no header
name, after stripping surrounding whitespace and lower-casing, equals
`"label"`; the headers `"Label"`, `" label "` and `"LABEL"` all satisfy
the resolution test. -/
theorem missing_column_exactly_iff (inp : RunInput) :
    (runOutcome inp = .missingColumn ↔
      ∀ c ∈ fieldnames inp.csv, pyLower (pyStrip c) ≠ "label") ∧
    isLabelHeader "Label" = true ∧ isLabelHeader " label " = true ∧
    isLabelHeader "LABEL" = true := by
  refine ⟨⟨?_, ?_⟩, by decide, by decide, by decide⟩
  · intro h c hc hlab
    cases hcol : findLabelCol (fieldnames inp.csv) with
    | none =>
      exact List.find?_eq_none.mp hcol c hc ((isLabelHeader_eq_true_iff c).mpr hlab)
    | some col =>
      cases hf : (runRes inp col).2.2 with
      | some i =>
        rw [runOutcome, run_of_some_fault hcol hf] at h
        simp at h
      | none =>
        rw [runOutcome, run_of_some_ok hcol hf] at h
        simp at h
  · intro h
    have hcol : findLabelCol (fieldnames inp.csv) = none :=
      List.find?_eq_none.mpr (fun c hc hp =>
        h c hc ((isLabelHeader_eq_true_iff c).mp hp))
    rw [runOutcome, run_eq_of_none hcol]

theorem missing_column_exactly_iff_witness :
    runOutcome c4wInp = .missingColumn :=
  (missing_column_exactly_iff c4wInp).1.mpr (by decide)

/-- C5: when no header matches the label test, the run ends with the
missing-column outcome and its only file-system effect is the backup write
carrying the pre-run schematic bytes; in particular no schematic write
happens, so the schematic file stays byte-identical to its pre-run state. -/
theorem missing_column_atomicity (inp : RunInput)
    (h : ∀ c ∈ fieldnames inp.csv, pyLower (pyStrip c) ≠ "label") :
    run inp = ([Event.backupWrite (pyBakPath inp.cfg.schematicName)
      inp.cfg.schematicBytes], .missingColumn) := by
  have hcol : findLabelCol (fieldnames inp.csv) = none :=
    List.find?_eq_none.mpr (fun c hc hp =>
      h c hc ((isLabelHeader_eq_true_iff c).mp hp))
  exact run_eq_of_none hcol

theorem missing_column_atomicity_witness :
    run c5wInp = ([Event.backupWrite (pyBakPath "board.kicad_sch") [7, 7]],
      .missingColumn) :=
  missing_column_atomicity c5wInp (by decide)

/-- C6: every run's first effect is the backup write, whose path is the
schematic file name with `".bak"` appended and whose content is the pre-run
schematic bytes; this holds for runs that later fail with the
missing-column error as well. -/
theorem backup_path_and_priority (inp : RunInput) :
    (runEvents inp).head? = some (Event.backupWrite
      (inp.cfg.schematicName ++ ".bak") inp.cfg.schematicBytes) := by
  have hpath := pyBakPath_eq inp.cfg.schematicName
  cases hcol : findLabelCol (fieldnames inp.csv) with
  | none =>
    rw [runEvents, run_eq_of_none hcol]
    simp [backupEvent, hpath]
  | some col =>
    cases hf : (runRes inp col).2.2 with
    | some i =>
      rw [runEvents, run_of_some_fault hcol hf]
      simp [backupEvent, hpath]
    | none =>
      rw [runEvents, run_of_some_ok hcol hf]
      simp [backupEvent, hpath]

theorem backup_path_and_priority_witness :
    (runEvents c6wInp).head? = some (Event.backupWrite
      ("top.kicad_sch" ++ ".bak") [9]) :=
  backup_path_and_priority c6wInp

/-- C1 counterexample: on the spec's own scenario (pitch 100 mil, imperial,
rows `led1`, `"  "`, `led2`) the code places `LED2` at `(-10, -15.08)`, not
at `(-10, -12.54)` as the claim states: the loop index `idx` of
`enumerate(reader)` counts the skipped row, so ordinals are not dense over
emitted records. -/
theorem skipped_row_consumes_ordinal_cex :
    runLabels c1Inp = [⟨false, "LED1", -10, -10⟩, ⟨false, "LED2", -10, -15.08⟩] ∧
    ((-15.08 : ℚ) ≠ -12.54) := by
  constructor
  · norm_num [runLabels, runEvents, run, c1Inp, c1Csv, fieldnames, dataRows, findLabelCol,
      isLabelHeader, pyLower, pyStrip, stripChars, pyRowGet, lastIdx, processRows,
      toCanonical, chosenGlobal, positionFor, START_X_MM, START_Y_MM, pyUpper,
      List.find?, List.filter, List.filterMap, labelOfEvent]
    all_goals decide
  · norm_num

/-- C1 amended: the ordinal used for each emitted label's position is the
raw data-row index (blank rows excluded by the CSV reader), so a skipped
empty row does consume an ordinal: for every imperial pitch `p` the
scenario's rows yield exactly `LED1` at `(-10, -10)` and `LED2` at
`(-10, -10 - 2 * (p * 0.0254))` — a gap of two pitches, not one. -/
theorem labels_use_raw_row_index (p : ℚ) :
    runLabels ⟨⟨false, false, p, "sheet.kicad_sch", []⟩, ⟨true, true⟩, c1Csv⟩ =
      [⟨false, "LED1", -10, -10⟩, ⟨false, "LED2", -10, -10 - 2 * (p * 0.0254)⟩] := by
  norm_num [runLabels, runEvents, run, c1Csv, fieldnames, dataRows, findLabelCol,
    isLabelHeader, pyLower, pyStrip, stripChars, pyRowGet, lastIdx, processRows,
    toCanonical, chosenGlobal, positionFor, START_X_MM, START_Y_MM, pyUpper,
    List.find?, List.filter, List.filterMap, labelOfEvent]
  all_goals decide

theorem labels_use_raw_row_index_witness :
    runLabels ⟨⟨false, false, 100, "sheet.kicad_sch", []⟩, ⟨true, true⟩, c1Csv⟩ =
      [⟨false, "LED1", -10, -10⟩, ⟨false, "LED2", -10, -10 - 2 * (100 * 0.0254)⟩] :=
  labels_use_raw_row_index 100

/-- C2 counterexample: with `use_global = true` but a handle lacking the
`global_label` attribute, the created label comes from the local
sub-collection — the choice is not independent of the attributes the
document handle exposes. -/
theorem global_visibility_fallback_cex :
    c2Inp.cfg.useGlobal = true ∧
    (runLabels c2Inp).map SchLabel.isGlobal = [false] := by
  decide

/-- C2 amended: every label created during a run comes from the global
sub-collection exactly when `use_global` is set and the document handle
exposes `global_label` with a `new` method; otherwise every label comes
from the local sub-collection. -/
theorem label_collection_selection (inp : RunInput) :
    ∀ l ∈ runLabels inp,
      l.isGlobal = (inp.cfg.useGlobal && inp.doc.hasGlobalLabel &&
        inp.doc.globalLabelHasNew) := by
  intro l hl
  cases hcol : findLabelCol (fieldnames inp.csv) with
  | none =>
    rw [runLabels, runEvents, run_eq_of_none hcol] at hl
    simp [labelOfEvent, backupEvent] at hl
  | some col =>
    rw [runLabels_of_some hcol] at hl
    exact processRows_isGlobal _ _ _ _ _ _ _ l hl

theorem c2w_labels : runLabels c2wInp = [⟨true, "NET1", -10, -10⟩] := by
  norm_num [runLabels, runEvents, run, c2wInp, fieldnames, dataRows, findLabelCol,
    isLabelHeader, pyLower, pyStrip, stripChars, pyRowGet, lastIdx, processRows,
    toCanonical, chosenGlobal, positionFor, START_X_MM, START_Y_MM, pyUpper,
    List.find?, List.filter, List.filterMap, labelOfEvent]
  all_goals decide

theorem label_collection_selection_witness :
    (⟨true, "NET1", -10, -10⟩ : SchLabel).isGlobal =
      (c2wInp.cfg.useGlobal && c2wInp.doc.hasGlobalLabel &&
        c2wInp.doc.globalLabelHasNew) := by
  refine label_collection_selection c2wInp ⟨true, "NET1", -10, -10⟩ ?_
  rw [c2w_labels]
  exact List.mem_singleton.mpr rfl

/-- C3: a data row with no cell under the resolved label column is not
treated as empty and skipped — `DictReader` fills the missing cell with
Python `None`, so `row.get(label_col, "").strip()` raises `AttributeError`
and the run aborts: no label is emitted and the schematic is never
written. -/
theorem short_row_attribute_error :
    runOutcome c3Inp = .noneStripFault 0 ∧ runLabels c3Inp = [] ∧
    (runEvents c3Inp).filter Event.isSchWrite = [] := by
  decide

/-- C7: a successful run reports exactly the number of data rows whose
label cell is present and non-empty after stripping; that many labels are
created; every label's text is the stripped, upper-cased cell value, and no
label has empty text. -/
theorem success_count_and_text (inp : RunInput) (n : Nat)
    (h : runOutcome inp = .success n) :
    ∃ col, findLabelCol (fieldnames inp.csv) = some col ∧
      n = ((dataRows inp.csv).filter (qualifies (fieldnames inp.csv) col)).length ∧
      (runLabels inp).length = n ∧
      ∀ l ∈ runLabels inp, l.text ≠ "" ∧
        ∃ r ∈ dataRows inp.csv, ∃ v,
          pyRowGet (fieldnames inp.csv) r col = some v ∧ pyStrip v ≠ "" ∧
          l.text = pyUpper (pyStrip v) := by
  obtain ⟨col, hcol, hf, hn⟩ := runOutcome_success h
  obtain ⟨hcount, hlen⟩ := processRows_count col (fieldnames inp.csv)
    (toCanonical inp.cfg.pitch inp.cfg.unitIsMm) (chosenGlobal inp.cfg inp.doc)
    (dataRows inp.csv) 0 0 hf
  refine ⟨col, hcol, ?_, ?_, ?_⟩
  · rw [hn]
    rw [show (runRes inp col).2.1 = (processRows col (fieldnames inp.csv)
      (toCanonical inp.cfg.pitch inp.cfg.unitIsMm) (chosenGlobal inp.cfg inp.doc)
      (dataRows inp.csv) 0 0).2.1 from rfl, hcount]
    simp
  · rw [runLabels_of_some hcol]
    rw [show (runRes inp col).1 = (processRows col (fieldnames inp.csv)
      (toCanonical inp.cfg.pitch inp.cfg.unitIsMm) (chosenGlobal inp.cfg inp.doc)
      (dataRows inp.csv) 0 0).1 from rfl, hlen, hn]
    rw [show (runRes inp col).2.1 = (processRows col (fieldnames inp.csv)
      (toCanonical inp.cfg.pitch inp.cfg.unitIsMm) (chosenGlobal inp.cfg inp.doc)
      (dataRows inp.csv) 0 0).2.1 from rfl, hcount]
    simp
  · intro l hl
    rw [runLabels_of_some hcol] at hl
    obtain ⟨r, hr, v, hv, hne, htext⟩ := processRows_mem_text col (fieldnames inp.csv)
      (toCanonical inp.cfg.pitch inp.cfg.unitIsMm) (chosenGlobal inp.cfg inp.doc)
      (dataRows inp.csv) 0 0 l hl
    refine ⟨?_, r, hr, v, hv, hne, htext⟩
    rw [htext]
    exact pyUpper_ne_empty hne

theorem success_count_and_text_witness :
    ∃ col, findLabelCol (fieldnames c7wInp.csv) = some col ∧
      2 = ((dataRows c7wInp.csv).filter (qualifies (fieldnames c7wInp.csv) col)).length ∧
      (runLabels c7wInp).length = 2 ∧
      ∀ l ∈ runLabels c7wInp, l.text ≠ "" ∧
        ∃ r ∈ dataRows c7wInp.csv, ∃ v,
          pyRowGet (fieldnames c7wInp.csv) r col = some v ∧ pyStrip v ≠ "" ∧
          l.text = pyUpper (pyStrip v) :=
  success_count_and_text c7wInp 2 (by decide)

/-- C10 counterexample: column resolution succeeds on this input, yet the
run aborts on the short row before the write-back, so the document is never
persisted — resolution success alone does not guarantee a persist. -/
theorem no_persist_after_resolution_cex :
    findLabelCol (fieldnames c10Inp.csv) = some "Label" ∧
    (runEvents c10Inp).filter Event.isSchWrite = [] ∧
    runOutcome c10Inp = .noneStripFault 0 := by
  decide

/-- C10 amended: every run that completes successfully (column resolution
succeeded and no data row faulted) persists the document exactly once, to
the schematic path, regardless of how many labels were inserted — including
runs that insert zero labels. -/
theorem success_single_persist (inp : RunInput) (n : Nat)
    (h : runOutcome inp = .success n) :
    (runEvents inp).filter Event.isSchWrite = [Event.schWrite inp.cfg.schematicName] := by
  obtain ⟨col, hcol, hf, -⟩ := runOutcome_success h
  rw [runEvents, run_of_some_ok hcol hf]
  simp [Event.isSchWrite, backupEvent, filter_isSchWrite_map, List.filter_append]

theorem success_single_persist_witness :
    runOutcome c10wInp = .success 0 ∧
    (runEvents c10wInp).filter Event.isSchWrite = [Event.schWrite "z.kicad_sch"] :=
  ⟨by decide, success_single_persist c10wInp 0 (by decide)⟩

end LabelGen
